import Mathlib

/-!
# ObjectDetector: media classification, crop naming and the per-file walk

A shallow embedding of `ObjectDetector.h` and of `main` in `ObjectDetector.cpp`.

* `std::string` is a Lean `String`; the members used by the program
  (`find_last_of`, `substr`) are written out on the character list. The characters the
  program looks for ('.', and the extension tables) are ASCII.
* OpenCV, `stat` and `dirname` are external: they are the fields of `World`. They are
  total functions: a call answers with its returned value, and an exception thrown
  inside OpenCV is not part of the model.
* Reading never changes the file system; `imwrite` threads the file-system state `σ`,
  so that any pattern of write outcomes can be described.
* A video stream is the sequence of the results of its `read` calls. The loop over the
  frames takes fuel: it need not end on a stream whose reads never fail.
* Everything the program does to the outside is recorded, in order, as a list
  of `Event`s.
* `int` counters are unbounded integers: the model is the program below
  2^31 boxes per frame and 2^31 frames per video.
-/

namespace ObjectDetector

/-! ## std::string members -/

/-- Left-to-right scan behind `find_last_of`: `found` is the last index seen so far
holding `c`, `i` the index of the head of the remaining characters. -/
def findLastFrom (c : Char) : List Char → Nat → Option Nat → Option Nat
  | [], _, found => found
  | x :: xs, i, found => findLastFrom c xs (i + 1) (if x = c then some i else found)

/-- The call `s.find_last_of(".")` with a one-character argument: the index of the last
occurrence of `c`, `none` standing for `std::string::npos`. -/
def find_last_of (s : String) (c : Char) : Option Nat :=
  findLastFrom c s.data 0 none

/-- The call `s.substr(pos)`: the characters from index `pos` to the end. -/
def substr (s : String) (pos : Nat) : String :=
  ⟨s.data.drop pos⟩

/-- The call `s.substr(0, len)`: the first `len` characters. -/
def substrTo (s : String) (len : Nat) : String :=
  ⟨s.data.take len⟩

/-! ## ObjectDetector.h -/

/-- The array `imageExtensions`, its terminating empty string included. -/
def imageExtensions : List String :=
  ["bmp", "dib", "jpeg", "jpg", "jpe", "jp2", "png", "pdm", "pgm", "ppm", "sr", "ras",
   "tiff", "tif", ""]

/-- The array `videoExtensions`, its terminating empty string included. -/
def videoExtensions : List String :=
  ["avi", "mp4", ""]

/-- The enumeration `FILE_TYPE`. -/
inductive FILE_TYPE where
  | VIDEO
  | IMAGE
  | OTHER
  deriving DecidableEq, Repr

/-- One `while (table[iterator].length() > 0)` loop of `identifyFileType`: walk the table
from `iterator` until an entry compares equal to `extension` (true) or the empty
terminator is reached (false). -/
def scanExtensions (extension : String) : List String → Bool
  | [] => false
  | entry :: rest =>
    if entry.length > 0 then
      if entry = extension then true else scanExtensions extension rest
    else false

/-- The function `identifyFileType`. -/
def identifyFileType (path : String) : FILE_TYPE :=
  match find_last_of path '.' with
  | some pos =>
    let extension := substr path (pos + 1)
    if scanExtensions extension imageExtensions then FILE_TYPE.IMAGE
    else if scanExtensions extension videoExtensions then FILE_TYPE.VIDEO
    else FILE_TYPE.OTHER
  | none => FILE_TYPE.OTHER

/-- The function `removeExtension` (defined in the header, called nowhere). -/
def removeExtension (filename : String) : String :=
  match find_last_of filename '.' with
  | none => filename
  | some lastDotCharacter => substrTo filename lastDotCharacter

/-- The template `numberToString` at `int`: what `ss << Number` prints, a minus sign
for a negative number followed by the decimal digits of its magnitude. -/
def numberToString (Number : Int) : String :=
  if Number < 0 then "-" ++ Nat.repr Number.natAbs else Nat.repr Number.toNat

/-! ## The outside world -/

/-- What the program does to the outside, in program order. A line sent to a stream is
recorded without its final newline. -/
inductive Event (Mat : Type) where
  | cout (line : String)
  | cerr (line : String)
  | stat (path : String)
  | load (path : String)
  | imread (path : String)
  | videoOpen (path : String)
  | videoRead (path : String)
  | detectMultiScale (image : Mat)
  | imwrite (path : String) (image : Mat) (success : Bool)
  deriving DecidableEq, Repr

/-- The external collaborators: `stat`, `dirname`, and OpenCV. `σ` is the state of the
file system, `Mat` a decoded raster, `Rect` a box, `Cascade` a loaded detector.

* `dirname p` gives the returned string and the contents of the argument buffer after
  the call (POSIX lets `dirname` modify its argument).
* `imread` gives `none` when the returned matrix has no data.
* `videoOpen` gives `none` when `open` returns false, and otherwise the stream: the
  function giving, for the k-th `read` (k from 0), the returned flag and the matrix
  (`none` when it has no data).
* `imwrite` gives the returned flag and the file system after the attempt. -/
structure World (σ Mat Rect Cascade : Type) where
  stat : String → σ → Bool
  dirname : String → String × String
  load : String → σ → Option Cascade
  imread : String → σ → Option Mat
  videoOpen : String → σ → Option (Nat → Bool × Option Mat)
  cvtColor : Mat → Mat
  equalizeHist : Mat → Mat
  detectMultiScale : Cascade → Mat → ℚ → Int → Int → Int × Int → List Rect
  crop : Mat → Rect → Mat
  imwrite : String → Mat → σ → Bool × σ

/-- The constant `CV_HAAR_SCALE_IMAGE` of OpenCV. -/
def CV_HAAR_SCALE_IMAGE : Int := 2

/-- The macro `DEFAULT_DETECTOR_PATH`. -/
def DEFAULT_DETECTOR_PATH : String := "cascades/haarcascade_profileface.xml"

section Program

variable {σ Mat Rect Cascade : Type}

/-- The function `fileExists`: whether `stat` returns 0 on the path. -/
def fileExists (w : World σ Mat Rect Cascade) (path : String) (s : σ) : Bool :=
  w.stat path s

/-- The function `detectAndExtract`: grayscale, equalise, scan. -/
def detectAndExtract (w : World σ Mat Rect Cascade) (imageSrc : Mat) (detector : Cascade) :
    List (Event Mat) × List Rect :=
  let imageSrcGray := w.cvtColor imageSrc
  let imageSrcGray := w.equalizeHist imageSrcGray
  ([Event.detectMultiScale imageSrcGray],
    w.detectMultiScale detector imageSrcGray (11 / 10) 3 CV_HAAR_SCALE_IMAGE (50, 50))

/-- The string `filenameCrop` built in the body of the loop of `extractAndSaveDetections`
at index `iter` (`pfx` is the parameter the source calls prefix). -/
def filenameCrop (directory pfx filename extension : String) (frame : Int) (iter : Nat) :
    String :=
  let stringIter := numberToString iter
  let stringFrame := numberToString frame
  let filenameCrop := directory
  let filenameCrop := if pfx.length > 0 then filenameCrop ++ (pfx ++ "_") else filenameCrop
  filenameCrop ++ (filename ++ "_" ++ stringFrame ++ "_" ++ stringIter ++ extension)

/-- The `for` loop of `extractAndSaveDetections`, entered at index `iter` with the boxes
`detections[iter], detections[iter+1], ...` still to do. -/
def extractLoop (w : World σ Mat Rect Cascade) (imageSrc : Mat)
    (directory pfx filename extension : String) (frame : Int) :
    List Rect → Nat → σ → List (Event Mat) × σ
  | [], _, s => ([], s)
  | box :: rest, iter, s =>
    let imageSrcCrop := w.crop imageSrc box
    let name := filenameCrop directory pfx filename extension frame iter
    let written := w.imwrite name imageSrcCrop s
    let report : List (Event Mat) :=
      if written.1 = false then [Event.cerr ("Failed to write " ++ name)] else []
    let later := extractLoop w imageSrc directory pfx filename extension frame rest
      (iter + 1) written.2
    (Event.imwrite name imageSrcCrop written.1 :: report ++ later.1, later.2)

/-- The function `extractAndSaveDetections`: the events, the returned flag and the file
system afterwards. The last parameter has the default value 0, as in the source. -/
def extractAndSaveDetections (w : World σ Mat Rect Cascade) (imageSrc : Mat)
    (detections : List Rect) (directory pfx filename extension : String) (s : σ)
    (frame : Int := 0) : List (Event Mat) × Bool × σ :=
  let done := extractLoop w imageSrc directory pfx filename extension frame detections 0 s
  (done.1, true, done.2)

/-! ## ObjectDetector.cpp -/

/-- The fields of `struct arguments` read by `main` after `argp_parse` (`pfx` is the field
the source calls prefix; `noFiles` and `noDirectories` are the lengths of the lists). -/
structure Arguments where
  output : Int
  verbose : Int
  recursive : Int
  pfx : String
  detector : String
  extension : String
  outputDirectory : String
  files : List String
  directories : List String

/-- The name of the detector file `main` checks and loads: `arguments.detector`, replaced
by `DEFAULT_DETECTOR_PATH` when it is empty. -/
def detectorFile (arguments : Arguments) : String :=
  if arguments.detector.length = 0 then DEFAULT_DETECTOR_PATH else arguments.detector

/-- The macro `VERBOSE`. -/
def VERBOSE {Mat : Type} (arguments : Arguments) (message : String) : List (Event Mat) :=
  if arguments.verbose ≠ 0 then [Event.cout message] else []

/-- Put the events `before` in front of those of a later part of the run. -/
def after {Mat σ : Type} (before : List (Event Mat)) (later : Option (List (Event Mat) × σ)) :
    Option (List (Event Mat) × σ) :=
  later.map (fun r => (before ++ r.1, r.2))

/-- The loop `while (readSuccessful)` of the video branch of `main`. `fuel` bounds the
number of times the loop condition is evaluated (`none`: not finished within `fuel`);
`position` counts the reads made so far on `video`. -/
def videoLoop (w : World σ Mat Rect Cascade) (arguments : Arguments) (detector : Cascade)
    (outputDirectory pfx filename extension : String) (video : Nat → Bool × Option Mat) :
    Nat → Bool → Nat → Int → σ → Option (List (Event Mat) × σ)
  | 0, _, _, _, _ => none
  | fuel + 1, readSuccessful, position, frame, s =>
    if readSuccessful then
      let readSuccessful := (video position).1
      match readSuccessful, (video position).2 with
      | true, some matSrc =>
        let found := detectAndExtract w matSrc detector
        let detections := found.2
        let saved : List (Event Mat) × σ :=
          if detections.length > 0 then
            let said : List (Event Mat) := VERBOSE arguments
              ("[" ++ filename ++ "]:" ++ "[" ++ numberToString frame ++ "]:"
                ++ numberToString detections.length ++ " detection(s)")
            if arguments.output ≠ 0 then
              let out := extractAndSaveDetections w matSrc detections outputDirectory pfx
                filename extension s frame
              (said ++ out.1, out.2.2)
            else (said, s)
          else ([], s)
        after (Event.videoRead filename :: found.1 ++ saved.1)
          (videoLoop w arguments detector outputDirectory pfx filename extension video
            fuel readSuccessful (position + 1) (frame + 1) saved.2)
      | _, _ =>
        after (Event.videoRead filename ::
            VERBOSE arguments ("[" ++ filename ++ "]:" ++ "done processing video file"))
          (videoLoop w arguments detector outputDirectory pfx filename extension video
            fuel readSuccessful (position + 1) frame s)
    else some ([], s)

/-- One iteration of the loop over `arguments.files` in `main`. -/
def processFile (w : World σ Mat Rect Cascade) (arguments : Arguments) (detector : Cascade)
    (outputDirectory pfx extension : String) (fuel : Nat) (file : String) (s : σ) :
    Option (List (Event Mat) × σ) :=
  let split := w.dirname file
  let baseFilenameStr := split.1
  let filename := split.2
  let filetype := identifyFileType filename
  if filetype = FILE_TYPE.IMAGE then
    match w.imread filename s with
    | none =>
      some ([Event.imread filename,
        Event.cerr ("[" ++ filename ++ "]:" ++ "cannot load image file ")], s)
    | some matSrc =>
      let found := detectAndExtract w matSrc detector
      let detections := found.2
      let saved : List (Event Mat) × σ :=
        if detections.length > 0 then
          let said : List (Event Mat) := VERBOSE arguments
            ("[" ++ filename ++ "]:" ++ numberToString detections.length ++ " detection(s)")
          if arguments.output ≠ 0 then
            let out := extractAndSaveDetections w matSrc detections pfx outputDirectory
              baseFilenameStr extension s
            (said ++ out.1, out.2.2)
          else (said, s)
        else ([], s)
      some (Event.imread filename ::
        VERBOSE arguments ("[" ++ filename ++ "]:" ++ "processing image file ")
          ++ found.1 ++ saved.1, saved.2)
  else if filetype = FILE_TYPE.VIDEO then
    match w.videoOpen filename s with
    | none =>
      some ([Event.videoOpen filename,
        Event.cerr ("[" ++ filename ++ "]:" ++ "cannot open video file ")], s)
    | some video =>
      after (Event.videoOpen filename ::
          VERBOSE arguments ("[" ++ filename ++ "]:" ++ "processing video file"))
        (videoLoop w arguments detector outputDirectory pfx filename extension video
          fuel true 0 0 s)
  else some ([], s)

/-- The loop `for (iterator = 0; iterator < arguments.noFiles; iterator++)` of `main`. -/
def filesLoop (w : World σ Mat Rect Cascade) (arguments : Arguments) (detector : Cascade)
    (outputDirectory pfx extension : String) (fuel : Nat) :
    List String → σ → Option (List (Event Mat) × σ)
  | [], s => some ([], s)
  | file :: rest, s =>
    match processFile w arguments detector outputDirectory pfx extension fuel file s with
    | none => none
    | some done =>
      after done.1
        (filesLoop w arguments detector outputDirectory pfx extension fuel rest done.2)

/-- The function `main` from the return of `argp_parse` on: the value given to `exit`, the
events and the file system at the end; `none` when a video loop does not finish within
`fuel` evaluations of its condition. -/
def main (w : World σ Mat Rect Cascade) (arguments : Arguments) (fuel : Nat) (s : σ) :
    Option (Int × List (Event Mat) × σ) :=
  let outputDirectory := arguments.outputDirectory ++ "/"
  if fileExists w outputDirectory s = false then
    some (-1, [Event.stat outputDirectory,
      Event.cerr ("[" ++ outputDirectory ++ "]" ++ ":Output directory does not exist")], s)
  else
    let pfx := arguments.pfx
    let extension := arguments.extension
    let detectorFilename := detectorFile arguments
    let banner : List (Event Mat) :=
      Event.stat outputDirectory ::
      (if arguments.detector.length = 0 then VERBOSE arguments
        ("No custom detector added, using default detector " ++ DEFAULT_DETECTOR_PATH)
       else []) ++
      [Event.cout ("Verbose : " ++ numberToString arguments.verbose),
       Event.cout ("Recursive : " ++ numberToString arguments.recursive),
       Event.cout ("Number of files : " ++ numberToString arguments.files.length),
       Event.cout ("Number of directories : " ++ numberToString arguments.directories.length),
       Event.cout ("Detector : " ++ detectorFilename),
       Event.cout ("Prefix of output files : " ++ arguments.pfx),
       Event.stat detectorFilename]
    if fileExists w detectorFilename s = false then
      some (-1, banner ++
        [Event.cerr ("[" ++ detectorFilename ++ "]:" ++ "Detector file does not exist")], s)
    else
      match w.load detectorFilename s with
      | none =>
        some (-1, banner ++ [Event.load detectorFilename,
          Event.cerr ("[" ++ detectorFilename ++ "]:" ++ "Cannot load detector file")], s)
      | some detector =>
        let loaded : List (Event Mat) := banner ++ Event.load detectorFilename ::
          VERBOSE arguments ("[" ++ detectorFilename ++ "]:" ++ "Correctly loaded detector")
        match filesLoop w arguments detector outputDirectory pfx extension fuel
            arguments.files s with
        | none => none
        | some walked => some (0, loaded ++ walked.1, walked.2)

end Program

/-! ## Reading a trace -/

/-- The paths given to `imwrite`, in order. -/
def writtenPaths {Mat : Type} : List (Event Mat) → List String
  | [] => []
  | Event.imwrite path _ _ :: rest => path :: writtenPaths rest
  | _ :: rest => writtenPaths rest

/-- The `imwrite` calls, in order: path, image and returned flag. -/
def writeAttempts {Mat : Type} : List (Event Mat) → List (String × Mat × Bool)
  | [] => []
  | Event.imwrite path image success :: rest => (path, image, success) :: writeAttempts rest
  | _ :: rest => writeAttempts rest

/-- The lines sent to `std::cerr`, in order. -/
def cerrLines {Mat : Type} : List (Event Mat) → List String
  | [] => []
  | Event.cerr line :: rest => line :: cerrLines rest
  | _ :: rest => cerrLines rest

/-- The number of `read` calls made on video streams. -/
def readCount {Mat : Type} : List (Event Mat) → Nat
  | [] => 0
  | Event.videoRead _ :: rest => readCount rest + 1
  | _ :: rest => readCount rest

/-- The images handed to the detector, in order. -/
def detectedImages {Mat : Type} : List (Event Mat) → List Mat
  | [] => []
  | Event.detectMultiScale image :: rest => image :: detectedImages rest
  | _ :: rest => detectedImages rest

/-- The skip conditions of the loop over the files, for `file` met with the file system
in state `s`: the name left by `dirname` is classified `OTHER`, or it is an image that
`imread` returns without data, or it is a video that `open` refuses. -/
def Skipped {σ Mat Rect Cascade : Type} (w : World σ Mat Rect Cascade) (file : String)
    (s : σ) : Prop :=
  identifyFileType (w.dirname file).2 = FILE_TYPE.OTHER ∨
  (identifyFileType (w.dirname file).2 = FILE_TYPE.IMAGE ∧
    w.imread (w.dirname file).2 s = none) ∨
  (identifyFileType (w.dirname file).2 = FILE_TYPE.VIDEO ∧
    w.videoOpen (w.dirname file).2 s = none)

/-- The number read back from a string of decimal digits. -/
def decimalValue (digits : List Char) : Nat :=
  digits.foldl (fun value c => 10 * value + (c.toNat - 48)) 0

/-! ## A concrete world for the scenarios -/

/-- The loop `for (runp = last_slash; runp != path; --runp) if (runp[-1] != '/') break;`
of glibc's `dirname`: the start of the run of slashes that ends just before index `k`. -/
def slashRunStart (cs : List Char) : Nat → Nat
  | 0 => 0
  | k + 1 => if cs.getD k 'x' = '/' then slashRunStart cs k else k + 1

/-- The function `dirname` of `libgen.h` as glibc implements it (a library function, not
part of the repository): the returned string and the argument buffer after the call. A
path without a slash gives "." and is left as it is; otherwise the buffer is cut, in
place, at the end of its directory part, and returned. -/
def dirname (path : String) : String × String :=
  let cs := path.data
  let lastSlash : Option Nat :=
    match findLastFrom '/' cs 0 none with
    | some l =>
      if l ≠ 0 ∧ l + 1 = cs.length then
        if slashRunStart cs l ≠ 0 then findLastFrom '/' (cs.take (slashRunStart cs l)) 0 none
        else some l
      else some l
    | none => none
  match lastSlash with
  | some l =>
    let runp := slashRunStart cs l
    let cut := if runp = 0 then (if l = 1 then 2 else 1) else runp
    (⟨cs.take cut⟩, ⟨cs.take cut⟩)
  | none => (".", path)

/-- A world given by tables: rasters and boxes are numbers, the decoded image of a path
is `images path`, the stream of a video is `videos path`, the detector finds
`boxes image`, the crop of `image` by `box` is `100 * image + box`, the output directory
and the detector file exist and load. The file system is the list of the outcomes of the
`imwrite` calls still to come (success once the list is used up). -/
def tableWorld (images : String → Option Nat) (videos : String → Option (Nat → Bool × Option Nat))
    (boxes : Nat → List Nat) : World (List Bool) Nat Nat Unit where
  stat := fun _ _ => true
  dirname := dirname
  load := fun _ _ => some ()
  imread := fun path _ => images path
  videoOpen := fun path _ => videos path
  cvtColor := fun image => image
  equalizeHist := fun image => image
  detectMultiScale := fun _ image _ _ _ _ => boxes image
  crop := fun image box => 100 * image + box
  imwrite := fun _ _ s => (s.headD true, s.tail)

/-- Scenario A: the only image is `face.jpg` (raster 7), in which two boxes are found. -/
def scenarioA : World (List Bool) Nat Nat Unit :=
  tableWorld (fun path => if path = "face.jpg" then some 7 else none) (fun _ => none)
    (fun image => if image = 7 then [1, 2] else [])

/-- The stream of scenario B: three frames (rasters 10, 11, 12), then failing reads. -/
def clipStream (k : Nat) : Bool × Option Nat :=
  if k < 3 then (true, some (10 + k)) else (false, none)

/-- Scenario B: the only video is `clip.avi`, three frames, one box in frame 1 only. -/
def scenarioB : World (List Bool) Nat Nat Unit :=
  tableWorld (fun _ => none) (fun path => if path = "clip.avi" then some clipStream else none)
    (fun image => if image = 11 then [1] else [])

/-- A stream whose first read succeeds without data, whose second read delivers a frame
(raster 5), and whose later reads fail. -/
def gapStream (k : Nat) : Bool × Option Nat :=
  if k = 0 then (true, none) else if k = 1 then (true, some 5) else (false, none)

/-- A world whose only video, `gap.avi`, has the stream `gapStream`; one box per frame. -/
def scenarioGap : World (List Bool) Nat Nat Unit :=
  tableWorld (fun _ => none) (fun path => if path = "gap.avi" then some gapStream else none)
    (fun _ => [1])

/-- The arguments of a run on `files`: output written under `out`, no prefix, extension
`.jpg`, quiet, detector `d.xml`. -/
def runArguments (files : List String) : Arguments where
  output := 1
  verbose := 0
  recursive := 0
  pfx := ""
  detector := "d.xml"
  extension := ".jpg"
  outputDirectory := "out"
  files := files
  directories := []

/-- The arguments of `runArguments` with the verbose flag set. -/
def verboseArguments (files : List String) : Arguments where
  output := 1
  verbose := 1
  recursive := 0
  pfx := ""
  detector := "d.xml"
  extension := ".jpg"
  outputDirectory := "out"
  files := files
  directories := []

/-- The three set-up checks of `main` pass: the output directory exists, the detector file
exists, and it loads. -/
def SetupSucceeds {σ Mat Rect Cascade : Type} (w : World σ Mat Rect Cascade)
    (arguments : Arguments) (s : σ) : Prop :=
  fileExists w (arguments.outputDirectory ++ "/") s = true ∧
  fileExists w (detectorFile arguments) s = true ∧
  (w.load (detectorFile arguments) s).isSome = true

/-! ## Decimal strings -/

theorem digitChar_value (k : Nat) (h : k < 10) : (Nat.digitChar k).toNat - 48 = k := by
  interval_cases k <;> rfl

theorem digitChar_ne_underscore (k : Nat) (h : k < 10) : Nat.digitChar k ≠ '_' := by
  interval_cases k <;> decide

theorem toDigitsCore_value (fuel : Nat) : ∀ (n : Nat) (ds : List Char), n < fuel →
    (Nat.toDigitsCore 10 fuel n ds).foldl (fun value c => 10 * value + (c.toNat - 48)) 0
      = ds.foldl (fun value c => 10 * value + (c.toNat - 48)) n := by
  induction fuel with
  | zero => intro n ds h; omega
  | succ fuel ih =>
    intro n ds h
    have hd := digitChar_value (n % 10) (Nat.mod_lt _ (by norm_num))
    by_cases h0 : n / 10 = 0
    · have hn : n % 10 = n := by omega
      simp only [Nat.toDigitsCore, h0, if_true, List.foldl_cons, hd]
      simp [hn]
    · simp only [Nat.toDigitsCore, h0, if_false]
      rw [ih (n / 10) _ (by omega)]
      simp only [List.foldl_cons, hd]
      congr 1
      omega

theorem decimalValue_repr (n : Nat) : decimalValue (Nat.repr n).data = n := by
  have h := toDigitsCore_value (n + 1) n [] (by omega)
  simpa [decimalValue, Nat.repr, Nat.toDigits, List.asString] using h

theorem repr_injective (a b : Nat) (h : Nat.repr a = Nat.repr b) : a = b := by
  have := congrArg (fun s => decimalValue s.data) h
  simpa [decimalValue_repr] using this

theorem toDigitsCore_no_underscore (fuel : Nat) : ∀ (n : Nat) (ds : List Char), '_' ∉ ds →
    '_' ∉ Nat.toDigitsCore 10 fuel n ds := by
  induction fuel with
  | zero => intro n ds h; simpa [Nat.toDigitsCore] using h
  | succ fuel ih =>
    intro n ds h
    have hd := digitChar_ne_underscore (n % 10) (Nat.mod_lt _ (by norm_num))
    by_cases h0 : n / 10 = 0
    · simp only [Nat.toDigitsCore, h0, if_true, List.mem_cons, not_or]
      exact ⟨fun e => hd e.symm, h⟩
    · simp only [Nat.toDigitsCore, h0, if_false]
      apply ih
      simp only [List.mem_cons, not_or]
      exact ⟨fun e => hd e.symm, h⟩

theorem repr_no_underscore (n : Nat) : '_' ∉ (Nat.repr n).data := by
  have h := toDigitsCore_no_underscore (n + 1) n [] (by simp)
  simpa [Nat.repr, Nat.toDigits, List.asString] using h

theorem split_unique (c : Char) : ∀ (a a2 b b2 : List Char), c ∉ a → c ∉ a2 →
    a ++ c :: b = a2 ++ c :: b2 → a = a2 ∧ b = b2 := by
  intro a
  induction a with
  | nil =>
    intro a2 b b2 _ h2 h
    cases a2 with
    | nil => simpa using h
    | cons x xs =>
      simp only [List.nil_append, List.cons_append, List.cons.injEq] at h
      exact absurd (h.1 ▸ List.mem_cons_self _ _) h2
  | cons y ys ih =>
    intro a2 b b2 h1 h2 h
    cases a2 with
    | nil =>
      simp only [List.nil_append, List.cons_append, List.cons.injEq] at h
      exact absurd (h.1 ▸ List.mem_cons_self _ _) h1
    | cons x xs =>
      simp only [List.cons_append, List.cons.injEq] at h
      have := ih xs b b2 (fun m => h1 (List.mem_cons_of_mem _ m))
        (fun m => h2 (List.mem_cons_of_mem _ m)) h.2
      exact ⟨by rw [h.1, this.1], this.2⟩
theorem numberToString_natCast (n : Nat) : numberToString (n : Int) = Nat.repr n := by
  simp [numberToString]

/-! ## identifyFileType -/

theorem findLastFrom_not_mem (c : Char) : ∀ (cs : List Char) (i : Nat) (found : Option Nat),
    c ∉ cs → findLastFrom c cs i found = found := by
  intro cs
  induction cs with
  | nil => intro i found _; rfl
  | cons x xs ih =>
    intro i found h
    simp only [List.mem_cons, not_or] at h
    have hx : ¬ x = c := fun e => h.1 e.symm
    simp only [findLastFrom, hx, if_false]
    exact ih _ _ h.2

theorem findLastFrom_split (c : Char) (ext : List Char) (hext : c ∉ ext) :
    ∀ (pre : List Char) (i : Nat) (found : Option Nat),
      findLastFrom c (pre ++ c :: ext) i found = some (i + pre.length) := by
  intro pre
  induction pre with
  | nil =>
    intro i found
    simp only [List.nil_append, findLastFrom, if_true, List.length_nil, Nat.add_zero]
    exact findLastFrom_not_mem c ext _ _ hext
  | cons x xs ih =>
    intro i found
    have hstep : findLastFrom c (x :: xs ++ c :: ext) i found
        = findLastFrom c (xs ++ c :: ext) (i + 1) (if x = c then some i else found) := rfl
    rw [hstep, ih, List.length_cons]
    congr 1
    omega

theorem exists_last_split (c : Char) (cs : List Char) (h : c ∈ cs) :
    ∃ pre ext, cs = pre ++ c :: ext ∧ c ∉ ext := by
  have hr : c ∈ cs.reverse := List.mem_reverse.mpr h
  obtain ⟨a, b, hab, ha⟩ := List.eq_append_cons_of_mem hr
  refine ⟨b.reverse, a.reverse, ?_, fun m => ha (List.mem_reverse.mp m)⟩
  have := congrArg List.reverse hab
  simpa using this

theorem scanExtensions_iff (e : String) : ∀ (table : List String),
    scanExtensions e table = true ↔ e ∈ table.takeWhile (fun entry => entry.length > 0) := by
  intro table
  induction table with
  | nil => simp [scanExtensions]
  | cons entry rest ih =>
    by_cases h : entry.length > 0
    · by_cases he : entry = e
      · subst he
        simp [scanExtensions, List.takeWhile, h]
      · have he2 : ¬ e = entry := fun x => he x.symm
        simp [scanExtensions, List.takeWhile, h, he, he2, ih]
    · simp [scanExtensions, List.takeWhile, h]

theorem imageExtensions_entries :
    imageExtensions.takeWhile (fun entry => entry.length > 0)
      = ["bmp", "dib", "jpeg", "jpg", "jpe", "jp2", "png", "pdm", "pgm", "ppm", "sr",
        "ras", "tiff", "tif"] := by
  decide

theorem videoExtensions_entries :
    videoExtensions.takeWhile (fun entry => entry.length > 0) = ["avi", "mp4"] := by
  decide

theorem identifyFileType_of_split (pre ext : List Char) (h : '.' ∉ ext) :
    identifyFileType ⟨pre ++ '.' :: ext⟩
      = if scanExtensions ⟨ext⟩ imageExtensions then FILE_TYPE.IMAGE
        else if scanExtensions ⟨ext⟩ videoExtensions then FILE_TYPE.VIDEO
        else FILE_TYPE.OTHER := by
  have hfind : find_last_of ⟨pre ++ '.' :: ext⟩ '.' = some pre.length := by
    simp [find_last_of, findLastFrom_split '.' ext h pre 0 none]
  have hsub : substr ⟨pre ++ '.' :: ext⟩ (pre.length + 1) = ⟨ext⟩ := by
    simp [substr]
  simp only [identifyFileType, hfind, hsub]

theorem identifyFileType_no_dot (path : String) (h : '.' ∉ path.data) :
    identifyFileType path = FILE_TYPE.OTHER := by
  simp [identifyFileType, find_last_of, findLastFrom_not_mem '.' path.data 0 none h]

/-- What `identifyFileType` computes, for every path: `IMAGE` exactly when the path has a
'.' and the text after its last '.' is one of the non-empty entries of `imageExtensions`,
`VIDEO` exactly when that text is "avi" or "mp4", and `OTHER` in every other case. -/
theorem identifyFileType_spec (path : String) :
    (identifyFileType path = FILE_TYPE.IMAGE ↔
      ∃ pre ext, path.data = pre ++ '.' :: ext ∧ '.' ∉ ext ∧
        String.mk ext ∈ ["bmp", "dib", "jpeg", "jpg", "jpe", "jp2", "png", "pdm", "pgm",
          "ppm", "sr", "ras", "tiff", "tif"])
    ∧ (identifyFileType path = FILE_TYPE.VIDEO ↔
      ∃ pre ext, path.data = pre ++ '.' :: ext ∧ '.' ∉ ext ∧
        String.mk ext ∈ ["avi", "mp4"]) := by
  by_cases hdot : '.' ∈ path.data
  · obtain ⟨pre, ext, hsplit, hext⟩ := exists_last_split '.' path.data hdot
    have hpath : path = ⟨pre ++ '.' :: ext⟩ := String.ext hsplit
    have huniq : ∀ pre2 ext2, path.data = pre2 ++ '.' :: ext2 → '.' ∉ ext2 → ext2 = ext := by
      intro pre2 ext2 h2 hn
      have h3 : ext2.reverse ++ '.' :: pre2.reverse = ext.reverse ++ '.' :: pre.reverse := by
        have := congrArg List.reverse (h2.symm.trans hsplit)
        simpa using this
      have := (split_unique '.' _ _ _ _ (fun m => hn (List.mem_reverse.mp m))
        (fun m => hext (List.mem_reverse.mp m)) h3).1
      simpa using this
    have hval := identifyFileType_of_split pre ext hext
    rw [← hpath] at hval
    have himg := scanExtensions_iff ⟨ext⟩ imageExtensions
    have hvid := scanExtensions_iff ⟨ext⟩ videoExtensions
    rw [imageExtensions_entries] at himg
    rw [videoExtensions_entries] at hvid
    have hdisjoint : String.mk ext ∈ ["avi", "mp4"] →
        String.mk ext ∈ ["bmp", "dib", "jpeg", "jpg", "jpe", "jp2", "png", "pdm", "pgm",
          "ppm", "sr", "ras", "tiff", "tif"] → False := by
      generalize String.mk ext = e
      intro hv hi
      simp only [List.mem_cons, List.mem_singleton, List.not_mem_nil, or_false] at hv
      rcases hv with rfl | rfl <;> revert hi <;> decide
    cases hbi : scanExtensions ⟨ext⟩ imageExtensions with
    | true =>
      have hi := himg.mp hbi
      simp only [hbi, if_true] at hval
      refine ⟨⟨fun _ => ⟨pre, ext, hsplit, hext, hi⟩, fun _ => hval⟩, ?_, ?_⟩
      · intro h
        rw [hval] at h
        cases h
      · rintro ⟨pre2, ext2, h2, hn, hmem⟩
        rw [huniq pre2 ext2 h2 hn] at hmem
        exact absurd hi (fun hi => hdisjoint hmem hi)
    | false =>
      have hno : String.mk ext ∉ ["bmp", "dib", "jpeg", "jpg", "jpe", "jp2", "png", "pdm",
          "pgm", "ppm", "sr", "ras", "tiff", "tif"] := by
        intro hmem
        rw [himg.mpr hmem] at hbi
        cases hbi
      cases hbv : scanExtensions ⟨ext⟩ videoExtensions with
      | true =>
        have hv := hvid.mp hbv
        simp [hbi, hbv] at hval
        refine ⟨⟨?_, ?_⟩, fun _ => ⟨pre, ext, hsplit, hext, hv⟩, fun _ => hval⟩
        · intro h
          rw [hval] at h
          cases h
        · rintro ⟨pre2, ext2, h2, hn, hmem⟩
          rw [huniq pre2 ext2 h2 hn] at hmem
          exact absurd hmem hno
      | false =>
        have hnov : String.mk ext ∉ ["avi", "mp4"] := by
          intro hmem
          rw [hvid.mpr hmem] at hbv
          cases hbv
        simp [hbi, hbv] at hval
        refine ⟨⟨?_, ?_⟩, ?_, ?_⟩
        · intro h
          rw [hval] at h
          cases h
        · rintro ⟨pre2, ext2, h2, hn, hmem⟩
          rw [huniq pre2 ext2 h2 hn] at hmem
          exact absurd hmem hno
        · intro h
          rw [hval] at h
          cases h
        · rintro ⟨pre2, ext2, h2, hn, hmem⟩
          rw [huniq pre2 ext2 h2 hn] at hmem
          exact absurd hmem hnov
  · have hother := identifyFileType_no_dot path hdot
    constructor
    · constructor
      · intro h; rw [hother] at h; cases h
      · rintro ⟨pre2, ext2, h2, -, -⟩
        exact absurd (h2 ▸ List.mem_append_right _ (List.mem_cons_self _ _)) hdot
    · constructor
      · intro h; rw [hother] at h; cases h
      · rintro ⟨pre2, ext2, h2, -, -⟩
        exact absurd (h2 ▸ List.mem_append_right _ (List.mem_cons_self _ _)) hdot

/-- C4 at a failing input: a path ending in ".pbm" is classified `OTHER`, and one ending
in ".pdm" is classified `IMAGE`. -/
theorem identifyFileType_pbm :
    identifyFileType "scan.pbm" = FILE_TYPE.OTHER
    ∧ identifyFileType "scan.pdm" = FILE_TYPE.IMAGE := by
  decide

/-! ## Traces -/

section Traces

variable {Mat : Type}

theorem writtenPaths_append (a b : List (Event Mat)) :
    writtenPaths (a ++ b) = writtenPaths a ++ writtenPaths b := by
  induction a with
  | nil => rfl
  | cons e rest ih => cases e <;> simp [writtenPaths, ih]

theorem writeAttempts_append (a b : List (Event Mat)) :
    writeAttempts (a ++ b) = writeAttempts a ++ writeAttempts b := by
  induction a with
  | nil => rfl
  | cons e rest ih => cases e <;> simp [writeAttempts, ih]

theorem cerrLines_append (a b : List (Event Mat)) :
    cerrLines (a ++ b) = cerrLines a ++ cerrLines b := by
  induction a with
  | nil => rfl
  | cons e rest ih => cases e <;> simp [cerrLines, ih]

theorem readCount_append (a b : List (Event Mat)) :
    readCount (a ++ b) = readCount a + readCount b := by
  induction a with
  | nil => simp [readCount]
  | cons e rest ih => cases e <;> simp [readCount, ih]; omega

theorem detectedImages_append (a b : List (Event Mat)) :
    detectedImages (a ++ b) = detectedImages a ++ detectedImages b := by
  induction a with
  | nil => rfl
  | cons e rest ih => cases e <;> simp [detectedImages, ih]

end Traces

/-! ## extractAndSaveDetections -/

section Extract

variable {σ Mat Rect Cascade : Type}

theorem filenameCrop_flat (directory pfx filename extension : String) (frame : Int)
    (iter : Nat) :
    filenameCrop directory pfx filename extension frame iter
      = directory ++ (if pfx = "" then "" else pfx ++ "_") ++ filename ++ "_"
          ++ numberToString frame ++ "_" ++ numberToString iter ++ extension := by
  have hlen : pfx.length > 0 ↔ pfx ≠ "" := by
    cases pfx with
    | mk cs => cases cs <;> simp [String.length, String.ext_iff]
  by_cases h : pfx = ""
  · simp [filenameCrop, h, String.append_assoc]
  · have h2 : pfx.length > 0 := hlen.mpr h
    simp [filenameCrop, h, h2, String.append_assoc]

theorem extractLoop_paths (w : World σ Mat Rect Cascade) (imageSrc : Mat)
    (directory pfx filename extension : String) (frame : Int) :
    ∀ (detections : List Rect) (iter : Nat) (s : σ),
      writtenPaths (extractLoop w imageSrc directory pfx filename extension frame
          detections iter s).1
        = (List.range' iter detections.length).map
            (filenameCrop directory pfx filename extension frame) := by
  intro detections
  induction detections with
  | nil => intro iter s; rfl
  | cons box rest ih =>
    intro iter s
    simp only [extractLoop, List.length_cons, List.range'_succ, List.map_cons]
    split <;> simp [writtenPaths, writtenPaths_append, ih]

theorem extractLoop_images (w : World σ Mat Rect Cascade) (imageSrc : Mat)
    (directory pfx filename extension : String) (frame : Int) :
    ∀ (detections : List Rect) (iter : Nat) (s : σ),
      (writeAttempts (extractLoop w imageSrc directory pfx filename extension frame
          detections iter s).1).map (fun a => a.2.1)
        = detections.map (w.crop imageSrc) := by
  intro detections
  induction detections with
  | nil => intro iter s; rfl
  | cons box rest ih =>
    intro iter s
    simp only [extractLoop, List.map_cons]
    split <;> simp [writeAttempts, writeAttempts_append, ih]

theorem extractLoop_cerr (w : World σ Mat Rect Cascade) (imageSrc : Mat)
    (directory pfx filename extension : String) (frame : Int) :
    ∀ (detections : List Rect) (iter : Nat) (s : σ),
      cerrLines (extractLoop w imageSrc directory pfx filename extension frame
          detections iter s).1
        = ((writeAttempts (extractLoop w imageSrc directory pfx filename extension frame
            detections iter s).1).filter (fun a => a.2.2 = false)).map
            (fun a => "Failed to write " ++ a.1) := by
  intro detections
  induction detections with
  | nil => intro iter s; rfl
  | cons box rest ih =>
    intro iter s
    simp only [extractLoop]
    split
    · rename_i h
      simp [writeAttempts, writeAttempts_append, cerrLines, cerrLines_append, ih, h]
    · rename_i h
      simp [writeAttempts, writeAttempts_append, cerrLines, cerrLines_append, ih, h]

/-- C1: `extractAndSaveDetections` attempts exactly one write per box, in index order
0..n-1; the i-th write goes to directory + (prefix + "_" when the prefix is not empty)
+ filename + "_" + decimal(frame) + "_" + decimal(i) + extension and carries the crop of
box i, whatever the outcomes of the writes (the world and its state are arbitrary); and
a call without the frame argument is the call with frame 0. -/
theorem extractAndSaveDetections_writes (w : World σ Mat Rect Cascade) (imageSrc : Mat)
    (detections : List Rect) (directory pfx filename extension : String) (frame : Int)
    (s : σ) :
    writtenPaths (extractAndSaveDetections w imageSrc detections directory pfx filename
        extension s frame).1
      = (List.range detections.length).map (fun (i : Nat) =>
          directory ++ (if pfx = "" then "" else pfx ++ "_") ++ filename ++ "_"
            ++ numberToString frame ++ "_" ++ numberToString (i : Int) ++ extension)
    ∧ (writeAttempts (extractAndSaveDetections w imageSrc detections directory pfx filename
        extension s frame).1).map (fun a => a.2.1) = detections.map (w.crop imageSrc)
    ∧ extractAndSaveDetections w imageSrc detections directory pfx filename extension s
      = extractAndSaveDetections w imageSrc detections directory pfx filename extension s 0 := by
  refine ⟨?_, ?_, rfl⟩
  · simp only [extractAndSaveDetections, extractLoop_paths, List.range_eq_range']
    apply List.map_congr_left
    intro i _
    exact filenameCrop_flat directory pfx filename extension frame i
  · simp only [extractAndSaveDetections, extractLoop_images]

theorem filenameCrop_data (directory pfx filename extension : String) (frame : Int)
    (iter : Nat) :
    (filenameCrop directory pfx filename extension frame iter).data
      = (directory ++ (if pfx = "" then "" else pfx ++ "_") ++ filename ++ "_").data
          ++ ((numberToString frame).data
            ++ '_' :: ((Nat.repr iter).data ++ extension.data)) := by
  rw [filenameCrop_flat, numberToString_natCast]
  simp [String.data_append]

/-- C8: for fixed directory, prefix, filename, extension and frame, the paths built for
two different box indices are different strings. -/
theorem filenameCrop_box_injective (directory pfx filename extension : String) (frame : Int)
    (i j : Nat) (h : i ≠ j) :
    filenameCrop directory pfx filename extension frame i
      ≠ filenameCrop directory pfx filename extension frame j := by
  intro heq
  have hdata := congrArg String.data heq
  rw [filenameCrop_data, filenameCrop_data] at hdata
  have h1 := List.append_cancel_left (List.append_cancel_left hdata)
  simp only [List.cons.injEq, true_and] at h1
  have h2 := List.append_cancel_right h1
  exact h (repr_injective i j (String.ext h2))

/-- Witness of C8: boxes 1 and 11 of frame 1. -/
theorem filenameCrop_box_injective_witness :
    (1 : Nat) ≠ 11 ∧ filenameCrop "out/" "" "clip" ".jpg" 1 1
      ≠ filenameCrop "out/" "" "clip" ".jpg" 1 11 :=
  ⟨by decide, filenameCrop_box_injective "out/" "" "clip" ".jpg" 1 1 11 (by decide)⟩

/-- C10: for fixed directory, prefix, filename and extension, the path is injective in
the pair (frame index, box index) over the non-negative integers: different pairs give
different paths. -/
theorem filenameCrop_frame_box_injective (directory pfx filename extension : String)
    (f1 i1 f2 i2 : Nat) (h : (f1, i1) ≠ (f2, i2)) :
    filenameCrop directory pfx filename extension (f1 : Int) i1
      ≠ filenameCrop directory pfx filename extension (f2 : Int) i2 := by
  intro heq
  have hdata := congrArg String.data heq
  rw [filenameCrop_data, filenameCrop_data, numberToString_natCast,
    numberToString_natCast] at hdata
  have h1 := List.append_cancel_left hdata
  have h2 := split_unique '_' _ _ _ _ (repr_no_underscore f1) (repr_no_underscore f2) h1
  have hf : f1 = f2 := repr_injective f1 f2 (String.ext h2.1)
  have hi : i1 = i2 := repr_injective i1 i2 (String.ext (List.append_cancel_right h2.2))
  exact h (by rw [hf, hi])

/-- Witness of C10: frame 1 box 11 against frame 11 box 1. -/
theorem filenameCrop_frame_box_injective_witness :
    ((1 : Nat), (11 : Nat)) ≠ (11, 1) ∧ filenameCrop "out/" "" "clip" ".jpg" (1 : Nat) 11
      ≠ filenameCrop "out/" "" "clip" ".jpg" (11 : Nat) 1 :=
  ⟨by decide, filenameCrop_frame_box_injective "out/" "" "clip" ".jpg" 1 11 11 1 (by decide)⟩

/-- Counterexample to C7: two runs over the same two boxes, one in which both writes
succeed and one in which the second write fails, return the same value. -/
theorem returned_flag_hides_failed_write :
    (writeAttempts (extractAndSaveDetections scenarioA 7 [1, 2] "out/" "" "face" ".jpg"
        [true, true] 0).1).map (fun a => a.2.2) = [true, true]
    ∧ (writeAttempts (extractAndSaveDetections scenarioA 7 [1, 2] "out/" "" "face" ".jpg"
        [true, false] 0).1).map (fun a => a.2.2) = [true, false]
    ∧ (extractAndSaveDetections scenarioA 7 [1, 2] "out/" "" "face" ".jpg" [true, true] 0).2.1
      = (extractAndSaveDetections scenarioA 7 [1, 2] "out/" "" "face" ".jpg"
          [true, false] 0).2.1 := by
  decide

/-- C7, amended: for every box list and every pattern of write outcomes,
`extractAndSaveDetections` returns true; the failed writes are reported on `std::cerr`
only, one line "Failed to write " + path per failed write, in box order. -/
theorem extractAndSaveDetections_returns_true (w : World σ Mat Rect Cascade) (imageSrc : Mat)
    (detections : List Rect) (directory pfx filename extension : String) (frame : Int)
    (s : σ) :
    (extractAndSaveDetections w imageSrc detections directory pfx filename extension s
      frame).2.1 = true
    ∧ cerrLines (extractAndSaveDetections w imageSrc detections directory pfx filename
        extension s frame).1
      = ((writeAttempts (extractAndSaveDetections w imageSrc detections directory pfx
          filename extension s frame).1).filter (fun a => a.2.2 = false)).map
          (fun a => "Failed to write " ++ a.1) := by
  refine ⟨rfl, ?_⟩
  simp only [extractAndSaveDetections]
  exact extractLoop_cerr w imageSrc directory pfx filename extension frame detections 0 s

end Extract

/-! ## The video loop -/

section Video

variable {σ Mat Rect Cascade : Type}

theorem readCount_VERBOSE (arguments : Arguments) (message : String) :
    readCount (VERBOSE arguments message : List (Event Mat)) = 0 := by
  unfold VERBOSE
  split <;> rfl

theorem detectedImages_VERBOSE (arguments : Arguments) (message : String) :
    detectedImages (VERBOSE arguments message : List (Event Mat)) = [] := by
  unfold VERBOSE
  split <;> rfl

theorem writtenPaths_VERBOSE (arguments : Arguments) (message : String) :
    writtenPaths (VERBOSE arguments message : List (Event Mat)) = [] := by
  unfold VERBOSE
  split <;> rfl

theorem readCount_extractLoop (w : World σ Mat Rect Cascade) (imageSrc : Mat)
    (directory pfx filename extension : String) (frame : Int) :
    ∀ (detections : List Rect) (iter : Nat) (s : σ),
      readCount (extractLoop w imageSrc directory pfx filename extension frame
          detections iter s).1 = 0 := by
  intro detections
  induction detections with
  | nil => intro iter s; rfl
  | cons box rest ih =>
    intro iter s
    simp only [extractLoop]
    split <;> simp [readCount, readCount_append, ih]

theorem detectedImages_extractLoop (w : World σ Mat Rect Cascade) (imageSrc : Mat)
    (directory pfx filename extension : String) (frame : Int) :
    ∀ (detections : List Rect) (iter : Nat) (s : σ),
      detectedImages (extractLoop w imageSrc directory pfx filename extension frame
          detections iter s).1 = [] := by
  intro detections
  induction detections with
  | nil => intro iter s; rfl
  | cons box rest ih =>
    intro iter s
    simp only [extractLoop]
    split <;> simp [detectedImages, detectedImages_append, ih]

theorem videoLoop_reads_from (w : World σ Mat Rect Cascade) (arguments : Arguments)
    (detector : Cascade) (outputDirectory pfx filename extension : String)
    (video : Nat → Bool × Option Mat) :
    ∀ (count position fuel : Nat) (frame : Int) (s : σ),
      (∀ k, position ≤ k → k < position + count → ∃ m, video k = (true, some m)) →
      (video (position + count)).1 = false → count + 2 ≤ fuel →
      ∃ r, videoLoop w arguments detector outputDirectory pfx filename extension video
          fuel true position frame s = some r
        ∧ readCount r.1 = count + 1 ∧ (detectedImages r.1).length = count := by
  intro count
  induction count with
  | zero =>
    intro position fuel frame s _ hfail hfuel
    obtain ⟨fuel, rfl⟩ : ∃ f, fuel = f + 2 := ⟨fuel - 2, by omega⟩
    rcases hv : video position with ⟨flag, image⟩
    have hflag : flag = false := by simpa [hv] using hfail
    subst hflag
    simp [videoLoop, hv, after, readCount, readCount_append, readCount_VERBOSE,
      detectedImages, detectedImages_append, detectedImages_VERBOSE]
  | succ count ih =>
    intro position fuel frame s hframes hfail hfuel
    obtain ⟨fuel, rfl⟩ : ∃ f, fuel = f + 1 := ⟨fuel - 1, by omega⟩
    obtain ⟨m, hm⟩ := hframes position (le_refl _) (by omega)
    have hrest : ∀ k, position + 1 ≤ k → k < position + 1 + count →
        ∃ m, video k = (true, some m) := fun k h1 h2 => hframes k (by omega) (by omega)
    have hfail2 : (video (position + 1 + count)).1 = false := by
      have : position + 1 + count = position + (count + 1) := by omega
      rw [this]; exact hfail
    simp only [videoLoop, hm, if_true]
    split_ifs with hd ho
    all_goals
      obtain ⟨r, hr, hreads, hdet⟩ := ih (position + 1) fuel (frame + 1) _ hrest hfail2
        (by omega)
      rw [hr]
      refine ⟨_, rfl, ?_, ?_⟩
      · simp [after, readCount, readCount_append, readCount_VERBOSE,
          readCount_extractLoop, extractAndSaveDetections, detectAndExtract, hreads]
      · simp [after, detectedImages, detectedImages_append, detectedImages_VERBOSE,
          detectedImages_extractLoop, extractAndSaveDetections, detectAndExtract, hdet]

end Video

section Walk

variable {σ Mat Rect Cascade : Type}

theorem after_some (before : List (Event Mat)) (r : List (Event Mat) × σ) :
    after before (some r) = some (before ++ r.1, r.2) := rfl

theorem after_none (before : List (Event Mat)) :
    after before (none : Option (List (Event Mat) × σ)) = none := rfl

theorem after_after (a b : List (Event Mat)) (later : Option (List (Event Mat) × σ)) :
    after a (after b later) = after (a ++ b) later := by
  cases later <;> simp [after]

theorem after_nil (later : Option (List (Event Mat) × σ)) : after [] later = later := by
  cases later <;> simp [after]

theorem videoLoop_terminates (w : World σ Mat Rect Cascade) (arguments : Arguments)
    (detector : Cascade) (outputDirectory pfx filename extension : String)
    (video : Nat → Bool × Option Mat) :
    ∀ (count position fuel : Nat) (frame : Int) (s : σ),
      (video (position + count)).1 = false → count + 2 ≤ fuel →
      ∃ r, videoLoop w arguments detector outputDirectory pfx filename extension video
          fuel true position frame s = some r := by
  intro count
  induction count with
  | zero =>
    intro position fuel frame s hfail hfuel
    obtain ⟨fuel, rfl⟩ : ∃ f, fuel = f + 2 := ⟨fuel - 2, by omega⟩
    rcases hv : video position with ⟨flag, image⟩
    have hflag : flag = false := by simpa [hv] using hfail
    subst hflag
    simp [videoLoop, hv, after]
  | succ count ih =>
    intro position fuel frame s hfail hfuel
    obtain ⟨fuel, rfl⟩ : ∃ f, fuel = f + 2 := ⟨fuel - 2, by omega⟩
    have hfail2 : (video (position + 1 + count)).1 = false := by
      have : position + 1 + count = position + (count + 1) := by omega
      rw [this]; exact hfail
    rcases hv : video position with ⟨flag, image⟩
    cases flag with
    | false => simp [videoLoop, hv, after]
    | true =>
      cases image with
      | none =>
        obtain ⟨r, hr⟩ := ih (position + 1) (fuel + 1) frame s hfail2 (by omega)
        rw [videoLoop]
        simp only [hv, if_true]
        rw [hr]
        exact ⟨_, rfl⟩
      | some m =>
        rw [videoLoop]
        simp only [hv, if_true]
        obtain ⟨r, hr⟩ := ih (position + 1) (fuel + 1) (frame + 1) _ hfail2 (by omega)
        rw [hr]
        exact ⟨_, rfl⟩

theorem processFile_terminates (w : World σ Mat Rect Cascade) (arguments : Arguments)
    (detector : Cascade) (outputDirectory pfx extension : String) (fuel : Nat)
    (hstreams : ∀ path s video, w.videoOpen path s = some video →
      ∃ k, k + 2 ≤ fuel ∧ (video k).1 = false)
    (file : String) (s : σ) :
    ∃ r, processFile w arguments detector outputDirectory pfx extension fuel file s
      = some r := by
  by_cases h1 : identifyFileType (w.dirname file).2 = FILE_TYPE.IMAGE
  · cases hread : w.imread (w.dirname file).2 s with
    | none =>
      simp only [processFile, h1, if_true, hread]
      exact ⟨_, rfl⟩
    | some matSrc =>
      simp only [processFile, h1, if_true, hread]
      exact ⟨_, rfl⟩
  · by_cases h2 : identifyFileType (w.dirname file).2 = FILE_TYPE.VIDEO
    · cases hopen : w.videoOpen (w.dirname file).2 s with
      | none =>
        simp only [processFile, h1, h2, if_true, if_false, hopen]
        exact ⟨_, rfl⟩
      | some video =>
        obtain ⟨k, hk, hfail⟩ := hstreams _ _ _ hopen
        obtain ⟨r, hr⟩ := videoLoop_terminates w arguments detector outputDirectory pfx
          (w.dirname file).2 extension video k 0 fuel 0 s (by simpa using hfail) hk
        simp only [processFile, h1, h2, if_true, if_false, hopen, hr]
        exact ⟨_, rfl⟩
    · simp only [processFile, h1, h2, if_false]
      exact ⟨_, rfl⟩

theorem filesLoop_terminates (w : World σ Mat Rect Cascade) (arguments : Arguments)
    (detector : Cascade) (outputDirectory pfx extension : String) (fuel : Nat)
    (hstreams : ∀ path s video, w.videoOpen path s = some video →
      ∃ k, k + 2 ≤ fuel ∧ (video k).1 = false) :
    ∀ (files : List String) (s : σ),
      ∃ r, filesLoop w arguments detector outputDirectory pfx extension fuel files s
        = some r := by
  intro files
  induction files with
  | nil => intro s; exact ⟨_, rfl⟩
  | cons file rest ih =>
    intro s
    obtain ⟨r, hr⟩ := processFile_terminates w arguments detector outputDirectory pfx
      extension fuel hstreams file s
    obtain ⟨r2, hr2⟩ := ih r.2
    simp only [filesLoop, hr, hr2]
    exact ⟨_, rfl⟩

theorem filesLoop_append (w : World σ Mat Rect Cascade) (arguments : Arguments)
    (detector : Cascade) (outputDirectory pfx extension : String) (fuel : Nat) :
    ∀ (before later : List String) (s : σ) (r : List (Event Mat) × σ),
      filesLoop w arguments detector outputDirectory pfx extension fuel before s = some r →
      filesLoop w arguments detector outputDirectory pfx extension fuel (before ++ later) s
        = after r.1
            (filesLoop w arguments detector outputDirectory pfx extension fuel later r.2) := by
  intro before
  induction before with
  | nil =>
    intro later s r h
    simp only [filesLoop, Option.some.injEq] at h
    subst h
    simp [after_nil]
  | cons file rest ih =>
    intro later s r h
    simp only [filesLoop, List.cons_append] at h ⊢
    cases hp : processFile w arguments detector outputDirectory pfx extension fuel file s with
    | none => simp [hp] at h
    | some done =>
      simp only [hp] at h ⊢
      cases hrest : filesLoop w arguments detector outputDirectory pfx extension fuel rest
          done.2 with
      | none => simp [hrest, after] at h
      | some r2 =>
        simp only [hrest, after_some, Option.some.injEq] at h
        subst h
        have hih := ih later done.2 r2 hrest
        simp only [List.append_eq] at hih ⊢
        rw [hih, after_after]

theorem processFile_skipped (w : World σ Mat Rect Cascade) (arguments : Arguments)
    (detector : Cascade) (outputDirectory pfx extension : String) (fuel : Nat)
    (file : String) (s : σ) (h : Skipped w file s) :
    ∃ t, processFile w arguments detector outputDirectory pfx extension fuel file s
        = some (t, s)
      ∧ detectedImages t = [] ∧ writtenPaths t = [] ∧ readCount t = 0 := by
  rcases h with h | ⟨h, hread⟩ | ⟨h, hopen⟩
  · exact ⟨[], by simp [processFile, h], rfl, rfl, rfl⟩
  · exact ⟨[Event.imread (w.dirname file).2,
      Event.cerr ("[" ++ (w.dirname file).2 ++ "]:" ++ "cannot load image file ")],
      by simp [processFile, h, hread], rfl, rfl, rfl⟩
  · exact ⟨[Event.videoOpen (w.dirname file).2,
      Event.cerr ("[" ++ (w.dirname file).2 ++ "]:" ++ "cannot open video file ")],
      by simp [processFile, h, hopen], rfl, rfl, rfl⟩

theorem videoLoop_endless (w : World σ Mat Rect Cascade) (arguments : Arguments)
    (detector : Cascade) (outputDirectory pfx filename extension : String)
    (video : Nat → Bool × Option Mat) (hall : ∀ k, (video k).1 = true) :
    ∀ (fuel position : Nat) (frame : Int) (s : σ),
      videoLoop w arguments detector outputDirectory pfx filename extension video
        fuel true position frame s = none := by
  intro fuel
  induction fuel with
  | zero => intro position frame s; rfl
  | succ fuel ih =>
    intro position frame s
    rcases hv : video position with ⟨flag, image⟩
    have hflag : flag = true := by simpa [hv] using hall position
    subst hflag
    rw [videoLoop]
    cases image with
    | none => simp only [hv, if_true, ih, after_none]
    | some m => simp only [hv, if_true, ih, after_none]

end Walk

section Claims

variable {σ Mat Rect Cascade : Type}

theorem clipStream_frames (k : Nat) (h : k < 3) : ∃ m, clipStream k = (true, some m) :=
  ⟨10 + k, by simp [clipStream, h]⟩

theorem clipStream_fails (k : Nat) (h : 3 ≤ k) : (clipStream k).1 = false := by
  have h2 : ¬ k < 3 := by omega
  simp [clipStream, h2]

/-- C2 at its own example: for the input `face.jpg` with two boxes, no prefix, extension
".jpg" and output directory "out", `main` writes `out/_._0_0.jpg` and `out/_._0_1.jpg`,
not `out/face_0_0.jpg` and `out/face_0_1.jpg`. -/
theorem main_image_written_paths :
    (main scenarioA (runArguments ["face.jpg"]) 5 []).map (fun r => (r.1, writtenPaths r.2.1))
      = some (0, ["out/_._0_0.jpg", "out/_._0_1.jpg"]) := by
  decide

/-- C3 at its own example: for the input `clip.avi` of three frames with one box in
frame 1 only, `main` writes the single file `out/clip.avi_1_0.jpg`, not
`out/clip_1_0.jpg`. -/
theorem main_video_written_paths :
    (main scenarioB (runArguments ["clip.avi"]) 5 []).map (fun r => (r.1, writtenPaths r.2.1))
      = some (0, ["out/clip.avi_1_0.jpg"]) := by
  decide

/-- Why the loop needs `ReadContract`: were a read to return true with an empty matrix,
the loop would print "done processing video file" and, its flag still true, read on. -/
theorem videoLoop_reads_past_empty_frame :
    gapStream 0 = (true, none)
    ∧ videoLoop scenarioGap (verboseArguments ["gap.avi"]) () "out/" "" "gap.avi" ".jpg"
        gapStream 5 true 0 0 []
      = some ([Event.videoRead "gap.avi",
          Event.cout "[gap.avi]:done processing video file",
          Event.videoRead "gap.avi",
          Event.detectMultiScale 5,
          Event.cout "[gap.avi]:[0]:1 detection(s)",
          Event.imwrite "out/gap.avi_0_0.jpg" 501 true,
          Event.videoRead "gap.avi",
          Event.cout "[gap.avi]:done processing video file"], []) := by
  decide

/-- Counterexample to C6: on a stream that delivers 3 frames and then fails every read,
the loop ends after 4 reads, not 3. -/
theorem videoLoop_reads_four_times :
    (∀ k, k < 3 → ∃ m, clipStream k = (true, some m))
    ∧ (∀ k, 3 ≤ k → (clipStream k).1 = false)
    ∧ (videoLoop scenarioB (runArguments ["clip.avi"]) () "out/" "" "clip.avi" ".jpg"
        clipStream 5 true 0 0 []).map (fun r => readCount r.1) = some 4 :=
  ⟨clipStream_frames, clipStream_fails, by decide⟩

/-- C6, amended: on a stream that delivers n frames and then fails every further read,
whatever the detector finds, the video loop ends (within n + 2 evaluations of its
condition) after exactly n + 1 reads, the n that deliver a frame and the failing one
that ends the loop, and the detector has run n times. -/
theorem videoLoop_reads (w : World σ Mat Rect Cascade) (arguments : Arguments)
    (detector : Cascade) (outputDirectory pfx filename extension : String)
    (video : Nat → Bool × Option Mat) (n : Nat)
    (hframes : ∀ k, k < n → ∃ m, video k = (true, some m))
    (hfail : ∀ k, n ≤ k → (video k).1 = false)
    (fuel : Nat) (hfuel : n + 2 ≤ fuel) (s : σ) :
    ∃ r, videoLoop w arguments detector outputDirectory pfx filename extension video
        fuel true 0 0 s = some r
      ∧ readCount r.1 = n + 1 ∧ (detectedImages r.1).length = n :=
  videoLoop_reads_from w arguments detector outputDirectory pfx filename extension video
    n 0 fuel 0 s (fun k _ h => hframes k (by omega)) (hfail _ (by omega)) hfuel

/-- Witness of C6, amended: the three-frame stream of scenario B, read with fuel 5. -/
theorem videoLoop_reads_witness :
    (∀ k, k < 3 → ∃ m, clipStream k = (true, some m))
    ∧ (∀ k, 3 ≤ k → (clipStream k).1 = false)
    ∧ 3 + 2 ≤ 5
    ∧ ∃ r, videoLoop scenarioB (runArguments ["clip.avi"]) () "out/" "" "clip.avi" ".jpg"
        clipStream 5 true 0 0 [] = some r
      ∧ readCount r.1 = 3 + 1 ∧ (detectedImages r.1).length = 3 :=
  ⟨clipStream_frames, clipStream_fails, by decide,
    videoLoop_reads scenarioB (runArguments ["clip.avi"]) () "out/" "" "clip.avi" ".jpg"
      clipStream 3 clipStream_frames clipStream_fails 5 (by decide) []⟩

theorem main_exit_zero (w : World σ Mat Rect Cascade) (arguments : Arguments) (fuel : Nat)
    (s : σ) (r : Int × List (Event Mat) × σ) (hsetup : SetupSucceeds w arguments s)
    (h : main w arguments fuel s = some r) : r.1 = 0 := by
  obtain ⟨h1, h2, h3⟩ := hsetup
  obtain ⟨detector, hload⟩ := Option.isSome_iff_exists.mp h3
  simp only [main, h1, h2, hload] at h
  cases hwalk : filesLoop w arguments detector (arguments.outputDirectory ++ "/")
      arguments.pfx arguments.extension fuel arguments.files s with
  | none => simp [hwalk] at h
  | some walked =>
    simp [hwalk] at h
    rw [← h]

theorem main_terminates (w : World σ Mat Rect Cascade) (arguments : Arguments) (fuel : Nat)
    (s : σ) (hsetup : SetupSucceeds w arguments s)
    (hstreams : ∀ path s2 video, w.videoOpen path s2 = some video →
      ∃ k, k + 2 ≤ fuel ∧ (video k).1 = false) :
    ∃ r, main w arguments fuel s = some r ∧ r.1 = 0 := by
  obtain ⟨h1, h2, h3⟩ := hsetup
  obtain ⟨detector, hload⟩ := Option.isSome_iff_exists.mp h3
  obtain ⟨walked, hwalk⟩ := filesLoop_terminates w arguments detector
    (arguments.outputDirectory ++ "/") arguments.pfx arguments.extension fuel hstreams
    arguments.files s
  simp only [main, h1, h2, hload, hwalk]
  exact ⟨_, rfl, rfl⟩

/-- The skip logic in terms of the name `dirname` leaves in the argument buffer (not of
the input path): (1) a name classified `OTHER` causes no event at all; (2) a skipped name
causes no detection, no write and no frame read, and leaves the file system as it was;
(3) the files after it are processed exactly as in the run over the list without it;
(4) once set-up has succeeded, a run that ends ends with exit code 0, and the run does end
when every video stream that opens has a failing read within the fuel. -/
theorem main_skips_and_continues (w : World σ Mat Rect Cascade) (arguments : Arguments)
    (detector : Cascade) (outputDirectory pfx extension : String) (fuel : Nat) :
    (∀ file s, identifyFileType (w.dirname file).2 = FILE_TYPE.OTHER →
      processFile w arguments detector outputDirectory pfx extension fuel file s
        = some ([], s))
    ∧ (∀ file s, Skipped w file s →
      ∃ t, processFile w arguments detector outputDirectory pfx extension fuel file s
          = some (t, s)
        ∧ detectedImages t = [] ∧ writtenPaths t = [] ∧ readCount t = 0)
    ∧ (∀ before file later s r,
      filesLoop w arguments detector outputDirectory pfx extension fuel before s = some r →
      Skipped w file r.2 →
      ∃ t, processFile w arguments detector outputDirectory pfx extension fuel file r.2
          = some (t, r.2)
        ∧ filesLoop w arguments detector outputDirectory pfx extension fuel
            (before ++ file :: later) s
          = after (r.1 ++ t)
              (filesLoop w arguments detector outputDirectory pfx extension fuel later r.2)
        ∧ filesLoop w arguments detector outputDirectory pfx extension fuel
            (before ++ later) s
          = after r.1
              (filesLoop w arguments detector outputDirectory pfx extension fuel later r.2))
    ∧ (∀ s r, SetupSucceeds w arguments s → main w arguments fuel s = some r → r.1 = 0)
    ∧ (∀ s, SetupSucceeds w arguments s →
      (∀ path s2 video, w.videoOpen path s2 = some video →
        ∃ k, k + 2 ≤ fuel ∧ (video k).1 = false) →
      ∃ r, main w arguments fuel s = some r ∧ r.1 = 0) := by
  refine ⟨?_, ?_, ?_, ?_, ?_⟩
  · intro file s h
    simp [processFile, h]
  · intro file s h
    exact processFile_skipped w arguments detector outputDirectory pfx extension fuel file s h
  · intro before file later s r hbefore hskip
    obtain ⟨t, ht, _⟩ := processFile_skipped w arguments detector outputDirectory pfx
      extension fuel file r.2 hskip
    refine ⟨t, ht, ?_, ?_⟩
    · rw [filesLoop_append w arguments detector outputDirectory pfx extension fuel before
        (file :: later) s r hbefore]
      simp only [filesLoop, ht, after_after]
    · exact filesLoop_append w arguments detector outputDirectory pfx extension fuel before
        later s r hbefore
  · intro s r hsetup h
    exact main_exit_zero w arguments fuel s r hsetup h
  · intro s hsetup hstreams
    exact main_terminates w arguments fuel s hsetup hstreams

/-- An instance in scenario A: the slash-free name `notes.txt` is skipped without any
event, and the run over `notes.txt`, `missing.jpg`, `face.jpg` ends with exit code 0. -/
theorem main_skips_and_continues_witness :
    processFile scenarioA (runArguments ["notes.txt", "missing.jpg", "face.jpg"]) ()
        "out/" "" ".jpg" 5 "notes.txt" [] = some ([], [])
    ∧ ∃ r, main scenarioA (runArguments ["notes.txt", "missing.jpg", "face.jpg"]) 5 []
        = some r ∧ r.1 = 0 :=
  ⟨(main_skips_and_continues scenarioA (runArguments ["notes.txt", "missing.jpg", "face.jpg"])
      () "out/" "" ".jpg" 5).1 "notes.txt" [] (by decide),
    (main_skips_and_continues scenarioA (runArguments ["notes.txt", "missing.jpg", "face.jpg"])
      () "out/" "" ".jpg" 5).2.2.2.2 [] ⟨rfl, rfl, rfl⟩
      (fun _ _ _ h => by simp [scenarioA, tableWorld] at h)⟩

/-- C9 at a failing input: the input path `pics.jpg/notes.txt` is unsupported (its
extension is "txt"), yet `main` hands `pics.jpg`, the directory part `dirname` left in the
argument buffer, to `imread`; for `face.jpg/notes.txt` it decodes `face.jpg`, runs the
detector and writes two crops. -/
theorem processFile_decodes_directory_part :
    identifyFileType "pics.jpg/notes.txt" = FILE_TYPE.OTHER
    ∧ processFile scenarioA (runArguments ["pics.jpg/notes.txt"]) () "out/" "" ".jpg" 5
        "pics.jpg/notes.txt" []
      = some ([Event.imread "pics.jpg",
          Event.cerr "[pics.jpg]:cannot load image file "], [])
    ∧ identifyFileType "face.jpg/notes.txt" = FILE_TYPE.OTHER
    ∧ processFile scenarioA (runArguments ["face.jpg/notes.txt"]) () "out/" "" ".jpg" 5
        "face.jpg/notes.txt" []
      = some ([Event.imread "face.jpg", Event.detectMultiScale 7,
          Event.imwrite "out/_face.jpg_0_0.jpg" 701 true,
          Event.imwrite "out/_face.jpg_0_1.jpg" 702 true], []) := by
  decide

/-- The same defect from the other side: the image `dir/face.jpg` is cut to `dir` by
`dirname`, classified `OTHER`, and passed over without a decode or a message. -/
theorem processFile_passes_over_image_in_directory :
    identifyFileType "dir/face.jpg" = FILE_TYPE.IMAGE
    ∧ processFile scenarioA (runArguments ["dir/face.jpg"]) () "out/" "" ".jpg" 5
        "dir/face.jpg" [] = some ([], []) := by
  decide

end Claims

end ObjectDetector
